import Mathlib

/-!
Verification of the Ogre Volume GridSource sampler
(src/Components/Volume/src/OgreVolumeGridSource.cpp).

The C++ class is shallowly embedded: `Real` (float) is modelled by `ℚ`
with exact arithmetic, `size_t` / `int` casts of floating values are
modelled by explicit floor / truncation on `ℚ`, and the virtual storage
accessors (getVolumeGridValue, getGradient, setVolumeGridValue), which
are declared but not defined in the translation unit, are passed as
explicit function parameters (the spec directs modelling them as an
injected storage capability).  The external math primitives (ray/box
intersection, vector normalisation, vector length), which the spec
declares external and assumed correct, are likewise parameters.
-/

/-- A 3-component vector, modelling Ogre Vector3 with exact rationals. -/
structure V3 where
  x : ℚ
  y : ℚ
  z : ℚ
deriving DecidableEq, Repr

/-- A 4-component vector, modelling Ogre Vector4. -/
structure V4 where
  x : ℚ
  y : ℚ
  z : ℚ
  w : ℚ
deriving DecidableEq, Repr

instance : Add V3 := ⟨fun a b => ⟨a.x + b.x, a.y + b.y, a.z + b.z⟩⟩

instance : HMul V3 ℚ V3 := ⟨fun v c => ⟨v.x * c, v.y * c, v.z * c⟩⟩

instance : HMul ℚ V3 V3 := ⟨fun c v => ⟨c * v.x, c * v.y, c * v.z⟩⟩

/-- The state of a GridSource object: lattice dimensions, per-axis
world-to-lattice scale factors, the volume-to-world factor and the three
sampling mode flags.  The backing storage is external and therefore not a
field. -/
structure GridSource where
  mWidth : ℤ
  mHeight : ℤ
  mDepth : ℤ
  mPosXScale : ℚ
  mPosYScale : ℚ
  mPosZScale : ℚ
  mVolumeSpaceToWorldSpaceFactor : ℚ
  mTrilinearValue : Bool
  mTrilinearGradient : Bool
  mSobelGradient : Bool
deriving DecidableEq, Repr

/-- Model of the C++ cast (size_t)r of a floating value: truncation.
For nonnegative arguments (the only defined regime of the sampler, since a
negative float to unsigned conversion is undefined behaviour in C++) this
is the floor. -/
def sizeTCast (q : ℚ) : ℕ := (⌊q⌋).toNat

/-- Model of the C++ expression (size_t)ceil(r) for nonnegative r. -/
def sizeTCastCeil (q : ℚ) : ℕ := (⌈q⌉).toNat

/-- Model of the C++ cast (int)r of a floating value: truncation toward
zero. -/
def truncTowardZero (q : ℚ) : ℤ := if 0 ≤ q then ⌊q⌋ else ⌈q⌉

/-- Ogre Math.Clamp(val, minval, maxval) = max (min val maxval) minval. -/
def mathClamp (v lo hi : ℤ) : ℤ := max (min v hi) lo

/-- GridSource.getValue (OgreVolumeGridSource.cpp lines 147 to 198).
The external virtual accessor getVolumeGridValue is the parameter
grid. -/
def getValue (s : GridSource) (grid : ℕ → ℕ → ℕ → ℚ) (position : V3) : ℚ :=
  let sx : ℚ := position.x * s.mPosXScale
  let sy : ℚ := position.y * s.mPosYScale
  let sz : ℚ := position.z * s.mPosZScale
  if s.mTrilinearValue then
    let x0 := sizeTCast sx
    let x1 := sizeTCastCeil sx
    let y0 := sizeTCast sy
    let y1 := sizeTCastCeil sy
    let z0 := sizeTCast sz
    let z1 := sizeTCastCeil sz
    let dX : ℚ := sx - (x0 : ℚ)
    let dY : ℚ := sy - (y0 : ℚ)
    let dZ : ℚ := sz - (z0 : ℚ)
    let f000 := grid x0 y0 z0
    let f100 := grid x1 y0 z0
    let f010 := grid x0 y1 z0
    let f001 := grid x0 y0 z1
    let f101 := grid x1 y0 z1
    let f011 := grid x0 y1 z1
    let f110 := grid x1 y1 z0
    let f111 := grid x1 y1 z1
    let oneMinX : ℚ := 1 - dX
    let oneMinY : ℚ := 1 - dY
    let oneMinZ : ℚ := 1 - dZ
    let oneMinXoneMinY := oneMinX * oneMinY
    let dXOneMinY := dX * oneMinY
    oneMinZ * (f000 * oneMinXoneMinY
        + f100 * dXOneMinY
        + f010 * oneMinX * dY)
      + dZ * (f001 * oneMinXoneMinY
        + f101 * dXOneMinY
        + f011 * oneMinX * dY)
      + dX * dY * (f110 * oneMinZ
        + f111 * dZ)
  else
    grid (sizeTCast (sx + 1/2)) (sizeTCast (sy + 1/2)) (sizeTCast (sz + 1/2))

/-- GridSource.getValueAndGradient (OgreVolumeGridSource.cpp lines 94 to
143).  The external virtual accessors getGradient and getVolumeGridValue
are the parameters grad and grid. -/
def getValueAndGradient (s : GridSource) (grad : ℕ → ℕ → ℕ → V3)
    (grid : ℕ → ℕ → ℕ → ℚ) (position : V3) : V4 :=
  let sx : ℚ := position.x * s.mPosXScale
  let sy : ℚ := position.y * s.mPosYScale
  let sz : ℚ := position.z * s.mPosZScale
  let normal : V3 :=
    if s.mTrilinearGradient then
      let x0 := sizeTCast sx
      let x1 := sizeTCastCeil sx
      let y0 := sizeTCast sy
      let y1 := sizeTCastCeil sy
      let z0 := sizeTCast sz
      let z1 := sizeTCastCeil sz
      let dX : ℚ := sx - (x0 : ℚ)
      let dY : ℚ := sy - (y0 : ℚ)
      let dZ : ℚ := sz - (z0 : ℚ)
      let f000 := grad x0 y0 z0
      let f100 := grad x1 y0 z0
      let f010 := grad x0 y1 z0
      let f001 := grad x0 y0 z1
      let f101 := grad x1 y0 z1
      let f011 := grad x0 y1 z1
      let f110 := grad x1 y1 z0
      let f111 := grad x1 y1 z1
      let oneMinX : ℚ := 1 - dX
      let oneMinY : ℚ := 1 - dY
      let oneMinZ : ℚ := 1 - dZ
      let oneMinXoneMinY := oneMinX * oneMinY
      let dXOneMinY := dX * oneMinY
      let blended : V3 :=
        oneMinZ * (f000 * oneMinXoneMinY
            + f100 * dXOneMinY
            + f010 * oneMinX * dY)
          + dZ * (f001 * oneMinXoneMinY
            + f101 * dXOneMinY
            + f011 * oneMinX * dY)
          + dX * dY * (f110 * oneMinZ
            + f111 * dZ)
      blended * (-1 : ℚ)
    else
      (grad (sizeTCast (sx + 1/2)) (sizeTCast (sy + 1/2))
          (sizeTCast (sz + 1/2))) * (-1 : ℚ)
  ⟨normal.x, normal.y, normal.z, getValue s grid position⟩

/-- The list of integers from a inclusive to b exclusive, in increasing
order: the iteration range of one C++ for loop. -/
def intRange (a b : ℤ) : List ℤ :=
  (List.range (b - a).toNat).map fun i : ℕ => a + (i : ℤ)

/-- The six clamped iteration bounds computed by
GridSource.combineWithSource (OgreVolumeGridSource.cpp lines 237 to 242):
each bound is the int cast of center plus or minus radius, clamped into
the interval from 0 to the dimension.  Note the source applies no scale
factor here. -/
structure BakeBounds where
  xs : ℤ
  xe : ℤ
  ys : ℤ
  ye : ℤ
  zs : ℤ
  ze : ℤ
deriving DecidableEq, Repr

/-- The bounds exactly as the source computes them. -/
def bakeBounds (s : GridSource) (center : V3) (radius : ℚ) : BakeBounds :=
  ⟨mathClamp (truncTowardZero (center.x - radius)) 0 s.mWidth,
   mathClamp (truncTowardZero (center.x + radius)) 0 s.mWidth,
   mathClamp (truncTowardZero (center.y - radius)) 0 s.mHeight,
   mathClamp (truncTowardZero (center.y + radius)) 0 s.mHeight,
   mathClamp (truncTowardZero (center.z - radius)) 0 s.mDepth,
   mathClamp (truncTowardZero (center.z + radius)) 0 s.mDepth⟩

/-- The bounds as the spec describes them: convert center plus or minus
radius to lattice index space on each axis independently, by applying
that axis its scale factor, then clamp into the interval from 0 to the
dimension.  This second definition follows the words of the spec and of
claim C2, to be compared with bakeBounds which follows the source. -/
def bakeBoundsSpec (s : GridSource) (center : V3) (radius : ℚ) : BakeBounds :=
  ⟨mathClamp (truncTowardZero ((center.x - radius) * s.mPosXScale)) 0 s.mWidth,
   mathClamp (truncTowardZero ((center.x + radius) * s.mPosXScale)) 0 s.mWidth,
   mathClamp (truncTowardZero ((center.y - radius) * s.mPosYScale)) 0 s.mHeight,
   mathClamp (truncTowardZero ((center.y + radius) * s.mPosYScale)) 0 s.mHeight,
   mathClamp (truncTowardZero ((center.z - radius) * s.mPosZScale)) 0 s.mDepth,
   mathClamp (truncTowardZero ((center.z + radius) * s.mPosZScale)) 0 s.mDepth⟩

/-- The lattice points visited by the three nested bake loops, in loop
order: z outermost, then y, then x innermost.  Each element is
(x, y, z). -/
def bakePoints (b : BakeBounds) : List (ℤ × ℤ × ℤ) :=
  (intRange b.zs b.ze).flatMap fun z =>
    (intRange b.ys b.ye).flatMap fun y =>
      (intRange b.xs b.xe).map fun x => (x, y, z)

/-- Runs the bake loop body over a list of lattice points.  The
combination operator op may throw, modelled by returning none; in that
case the loop stops, the writes already performed persist and the thrown
flag is true.  On success the write at the point is recorded and the
loop continues.  Returns the chronological list of write events and the
thrown flag. -/
def runBake (op : V3 → Option ℚ) (wws whs wds : ℚ) :
    List (ℤ × ℤ × ℤ) → List ((ℤ × ℤ × ℤ) × ℚ) × Bool
  | [] => ([], false)
  | pt :: rest =>
    match op ⟨(pt.1 : ℚ) * wws, (pt.2.1 : ℚ) * whs, (pt.2.2 : ℚ) * wds⟩ with
    | none => ([], true)
    | some v =>
      let r := runBake op wws whs wds rest
      ((pt, v) :: r.1, r.2)

/-- The outcome of GridSource.combineWithSource: whether an exception
from the operator escaped, the object state after the call (or after the
unwinding), and the chronological write events against the external
backing storage. -/
structure BakeOutcome where
  threw : Bool
  finalSource : GridSource
  writes : List ((ℤ × ℤ × ℤ) × ℚ)

/-- GridSource.combineWithSource (OgreVolumeGridSource.cpp lines 223 to
260).  The operator, already bound to source A and B (the binding has no
bearing on this state), is the parameter op; it may throw, modelled by
none.  The member mTrilinearValue is saved, forced to false for the
loop, and assigned back only on the straight-line exit: when op throws,
the assignment at the end of the function is never reached and the flag
stays false. -/
def combineWithSource (s : GridSource) (op : V3 → Option ℚ) (center : V3)
    (radius : ℚ) : BakeOutcome :=
  let worldWidthScale : ℚ := 1 / s.mPosXScale
  let worldHeightScale : ℚ := 1 / s.mPosYScale
  let worldDepthScale : ℚ := 1 / s.mPosZScale
  let oldTrilinearValue := s.mTrilinearValue
  let s1 : GridSource := { s with mTrilinearValue := false }
  let b := bakeBounds s center radius
  let r := runBake op worldWidthScale worldHeightScale worldDepthScale
      (bakePoints b)
  if r.2 then
    ⟨true, s1, r.1⟩
  else
    ⟨false, { s1 with mTrilinearValue := oldTrilinearValue }, r.1⟩

/-- One write against the external backing storage. -/
def writeCell (grid : ℤ → ℤ → ℤ → ℚ) (c : ℤ × ℤ × ℤ) (v : ℚ) :
    ℤ → ℤ → ℤ → ℚ :=
  fun a b d => if a = c.1 ∧ b = c.2.1 ∧ d = c.2.2 then v else grid a b d

/-- Replays a chronological list of write events against the storage. -/
def applyWrites (grid : ℤ → ℤ → ℤ → ℚ) :
    List ((ℤ × ℤ × ℤ) × ℚ) → (ℤ → ℤ → ℤ → ℚ)
  | [] => grid
  | (c, v) :: rest => applyWrites (writeCell grid c v) rest

/-- A ray: origin and (not necessarily normalised) direction. -/
structure RayT where
  origin : V3
  direction : V3

/-- An axis-aligned box given by its minimum and maximum corners,
modelling the finite Ogre AxisAlignedBox. -/
structure AAB where
  lo : V3
  hi : V3

/-- AxisAlignedBox.getSize: the componentwise extent of the box. -/
def boxSize (b : AAB) : V3 :=
  ⟨b.hi.x - b.lo.x, b.hi.y - b.lo.y, b.hi.z - b.lo.z⟩

/-- The external math primitives the intersection code calls.  The spec
declares them external collaborators, assumed correct: the ray/box
intersection test returning a hit flag and a distance (modelled by an
Option), vector normalisation and vector length.  They are parameters of
the embedding because their implementations live outside this
translation unit. -/
structure GeomLib where
  rayIntersectsBox : RayT → AAB → Option ℚ
  normalise : V3 → V3
  vecLength : V3 → ℚ

/-- Modelled from the spec: AxisAlignedBox.intersects(point), the
point-in-box test used on the ray origin, is not part of this
translation unit; per the spec it checks that the origin lies inside the
axis-aligned box, bounds inclusive. -/
def boxContains (b : AAB) (v : V3) : Bool :=
  decide (b.lo.x ≤ v.x ∧ v.x ≤ b.hi.x ∧ b.lo.y ≤ v.y ∧ v.y ≤ b.hi.y ∧
    b.lo.z ≤ v.z ∧ v.z ≤ b.hi.z)

/-- The box built at the top of both intersection methods:
AxisAlignedBox(0, 0, 0, mWidth, mHeight, mDepth). -/
def gridBox (s : GridSource) : AAB :=
  ⟨⟨0, 0, 0⟩, ⟨(s.mWidth : ℚ), (s.mHeight : ℚ), (s.mDepth : ℚ)⟩⟩

/-- GridSource.getIntersectionStart (OgreVolumeGridSource.cpp lines 39
to 59). -/
def getIntersectionStart (geom : GeomLib) (s : GridSource) (ray : RayT)
    (maxDistance : ℚ) : V3 :=
  let box := gridBox s
  if boxContains box ray.origin then
    ray.origin
  else
    match geom.rayIntersectsBox ray box with
    | some d =>
      let direction := geom.normalise ray.direction
      ray.origin + direction * d
    | none => ray.origin

/-- GridSource.getIntersectionEnd (OgreVolumeGridSource.cpp lines 63 to
77). -/
def getIntersectionEnd (geom : GeomLib) (s : GridSource) (ray : RayT)
    (maxDistance : ℚ) : V3 :=
  let box := gridBox s
  let direction := geom.normalise ray.direction
  let invertedDirection := (-1 : ℚ) * direction
  let origin := ray.origin + direction * geom.vecLength (boxSize box)
  let inverted : RayT := ⟨origin, invertedDirection⟩
  match geom.rayIntersectsBox inverted box with
  | some d => origin + invertedDirection * d
  | none => ray.origin + direction * maxDistance

/-- A concrete GridSource for witnesses and counterexamples. -/
def exSource (w h d : ℤ) (sx sy sz : ℚ) (tv tg sg : Bool) : GridSource :=
  ⟨w, h, d, sx, sy, sz, 1, tv, tg, sg⟩

/-- A combination operator that throws at every position. -/
def exOpThrow : V3 → Option ℚ := fun _ => none

/-- A total (never throwing) combination operator. -/
def exOpConst : V3 → Option ℚ := fun _ => some 7

/-- A concrete integer-indexed backing storage. -/
def exGridZ : ℤ → ℤ → ℤ → ℚ := fun x y z => x + 10 * y + 100 * z

/-- A concrete natural-indexed backing storage, as read by getValue. -/
def exGridN : ℕ → ℕ → ℕ → ℚ := fun x y z =>
  (x : ℚ) + 10 * (y : ℚ) + 100 * (z : ℚ)

/-- A concrete gradient accessor increasing purely along the x axis. -/
def exGrad : ℕ → ℕ → ℕ → V3 := fun x _ _ => ⟨(x : ℚ) + 1, 0, 0⟩

/-- A geometry library whose ray/box test never reports a hit, for
exercising the miss branches. -/
def geomMiss : GeomLib :=
  ⟨fun _ _ => none, fun v => v, fun _ => 0⟩

/-- A geometry library whose ray/box test always reports a hit at
distance 2 and which normalises to the identity. -/
def geomHit2 : GeomLib :=
  ⟨fun _ _ => some 2, fun v => v, fun _ => 0⟩

@[simp] theorem V3.add_x (a b : V3) : (a + b).x = a.x + b.x := rfl
@[simp] theorem V3.add_y (a b : V3) : (a + b).y = a.y + b.y := rfl
@[simp] theorem V3.add_z (a b : V3) : (a + b).z = a.z + b.z := rfl
@[simp] theorem V3.mulc_x (v : V3) (c : ℚ) : (v * c).x = v.x * c := rfl
@[simp] theorem V3.mulc_y (v : V3) (c : ℚ) : (v * c).y = v.y * c := rfl
@[simp] theorem V3.mulc_z (v : V3) (c : ℚ) : (v * c).z = v.z * c := rfl
@[simp] theorem V3.cmul_x (v : V3) (c : ℚ) : (c * v).x = c * v.x := rfl
@[simp] theorem V3.cmul_y (v : V3) (c : ℚ) : (c * v).y = c * v.y := rfl
@[simp] theorem V3.cmul_z (v : V3) (c : ℚ) : (c * v).z = c * v.z := rfl

/-- Membership in an integer range. -/
theorem mem_intRange {a b p : ℤ} : p ∈ intRange a b ↔ a ≤ p ∧ p < b := by
  unfold intRange
  simp only [List.mem_map, List.mem_range]
  constructor
  · rintro ⟨i, hi, rfl⟩
    omega
  · intro h
    exact ⟨(p - a).toNat, by omega, by omega⟩

/-- Membership in the bake point list is exactly membership in the
half-open integer box. -/
theorem mem_bakePoints {b : BakeBounds} {p : ℤ × ℤ × ℤ} :
    p ∈ bakePoints b ↔
      (b.xs ≤ p.1 ∧ p.1 < b.xe) ∧ (b.ys ≤ p.2.1 ∧ p.2.1 < b.ye) ∧
        (b.zs ≤ p.2.2 ∧ p.2.2 < b.ze) := by
  obtain ⟨px, py, pz⟩ := p
  unfold bakePoints
  simp only [List.mem_flatMap, List.mem_map, mem_intRange, Prod.mk.injEq]
  constructor
  · rintro ⟨z, hz, y, hy, x, hx, rfl, rfl, rfl⟩
    exact ⟨hx, hy, hz⟩
  · rintro ⟨hx, hy, hz⟩
    exact ⟨pz, hz, py, hy, px, hx, rfl, rfl, rfl⟩

/-- The coordinates of every recorded write come from the visited point
list. -/
theorem runBake_writes_mem (op : V3 → Option ℚ) (wws whs wds : ℚ)
    (pts : List (ℤ × ℤ × ℤ)) :
    ∀ w ∈ (runBake op wws whs wds pts).1, w.1 ∈ pts := by
  induction pts with
  | nil => intro w hw; simp [runBake] at hw
  | cons pt rest ih =>
    intro w hw
    unfold runBake at hw
    cases hop : op ⟨(pt.1 : ℚ) * wws, (pt.2.1 : ℚ) * whs, (pt.2.2 : ℚ) * wds⟩ with
    | none => rw [hop] at hw; simp at hw
    | some v =>
      rw [hop] at hw
      simp only [List.mem_cons] at hw
      rcases hw with rfl | hw
      · exact List.mem_cons_self _ _
      · exact List.mem_cons_of_mem _ (ih w hw)

/-- Replaying writes leaves every cell outside the written coordinates
unchanged. -/
theorem applyWrites_frame (ws : List ((ℤ × ℤ × ℤ) × ℚ))
    (grid : ℤ → ℤ → ℤ → ℚ) (px py pz : ℤ)
    (h : ∀ w ∈ ws, w.1 ≠ (px, py, pz)) :
    applyWrites grid ws px py pz = grid px py pz := by
  induction ws generalizing grid with
  | nil => rfl
  | cons wv rest ih =>
    obtain ⟨c, v⟩ := wv
    have hne : c ≠ (px, py, pz) := h (c, v) (List.mem_cons_self _ _)
    rw [applyWrites, ih _ fun w hw => h w (List.mem_cons_of_mem _ hw)]
    unfold writeCell
    rw [if_neg]
    intro hc
    apply hne
    obtain ⟨h1, h2, h3⟩ := hc
    obtain ⟨c1, c2, c3⟩ := c
    simp_all

/-- Helper: the floor cast of a natural number plus a fraction in
the interval from 0 inclusive to 1 exclusive is that natural number. -/
theorem sizeTCast_natCast_add (n : ℕ) (q : ℚ) (h0 : 0 ≤ q) (h1 : q < 1) :
    sizeTCast ((n : ℚ) + q) = n := by
  unfold sizeTCast
  have : ⌊(n : ℚ) + q⌋ = (n : ℤ) + ⌊q⌋ := by
    rw [add_comm, Int.floor_add_nat]
    omega
  rw [this, Int.floor_eq_zero_iff.mpr]
  · simp
  · constructor <;> simpa using by assumption

/-- Helper: the floor cast of a natural number is that natural number. -/
theorem sizeTCast_natCast (n : ℕ) : sizeTCast (n : ℚ) = n := by
  have := sizeTCast_natCast_add n 0 (le_refl 0) (by norm_num)
  simpa using this

/-- Helper: the ceiling cast of a natural number is that natural
number. -/
theorem sizeTCastCeil_natCast (n : ℕ) : sizeTCastCeil (n : ℚ) = n := by
  unfold sizeTCastCeil
  simp

/-- Claim C6: getIntersectionStart returns the ray origin whenever the
origin lies inside the box from 0 to width, height, depth (bounds
inclusive); it also returns the raw origin whenever the external
ray/box test reports no intersection; and only in the remaining case
(origin outside, ray hits at distance d) it returns origin plus the
normalised direction scaled by d. -/
theorem getIntersectionStart_cases (geom : GeomLib) (s : GridSource)
    (ray : RayT) (maxDistance d : ℚ) :
    ((0 ≤ ray.origin.x ∧ ray.origin.x ≤ (s.mWidth : ℚ) ∧
      0 ≤ ray.origin.y ∧ ray.origin.y ≤ (s.mHeight : ℚ) ∧
      0 ≤ ray.origin.z ∧ ray.origin.z ≤ (s.mDepth : ℚ)) →
      getIntersectionStart geom s ray maxDistance = ray.origin) ∧
    (geom.rayIntersectsBox ray (gridBox s) = none →
      getIntersectionStart geom s ray maxDistance = ray.origin) ∧
    (¬(0 ≤ ray.origin.x ∧ ray.origin.x ≤ (s.mWidth : ℚ) ∧
      0 ≤ ray.origin.y ∧ ray.origin.y ≤ (s.mHeight : ℚ) ∧
      0 ≤ ray.origin.z ∧ ray.origin.z ≤ (s.mDepth : ℚ)) →
      geom.rayIntersectsBox ray (gridBox s) = some d →
      getIntersectionStart geom s ray maxDistance =
        ray.origin + geom.normalise ray.direction * d) := by
  refine ⟨fun h => ?_, fun h => ?_, fun h hsome => ?_⟩
  · have hb : boxContains (gridBox s) ray.origin = true := by
      unfold boxContains gridBox
      simpa using h
    simp [getIntersectionStart, hb]
  · cases hb : boxContains (gridBox s) ray.origin
    · simp [getIntersectionStart, hb, h]
    · simp [getIntersectionStart, hb]
  · have hb : boxContains (gridBox s) ray.origin = false := by
      unfold boxContains gridBox
      simpa using h
    simp [getIntersectionStart, hb, hsome]

/-- Witness for C6: with a concrete 2 by 2 by 2 grid, an origin at
(1,1,1) strictly inside gives back the origin even when the external
test would report a hit, and with a never-hitting test any origin is
returned raw. -/
theorem getIntersectionStart_cases_witness :
    getIntersectionStart geomHit2 (exSource 2 2 2 1 1 1 true false false)
        ⟨⟨1, 1, 1⟩, ⟨1, 0, 0⟩⟩ 5 = ⟨1, 1, 1⟩ ∧
    getIntersectionStart geomMiss (exSource 2 2 2 1 1 1 true false false)
        ⟨⟨-5, -5, -5⟩, ⟨1, 0, 0⟩⟩ 5 = ⟨-5, -5, -5⟩ :=
  ⟨(getIntersectionStart_cases geomHit2 (exSource 2 2 2 1 1 1 true false false)
      ⟨⟨1, 1, 1⟩, ⟨1, 0, 0⟩⟩ 5 0).1 (by norm_num [exSource]),
   (getIntersectionStart_cases geomMiss (exSource 2 2 2 1 1 1 true false false)
      ⟨⟨-5, -5, -5⟩, ⟨1, 0, 0⟩⟩ 5 0).2.1 rfl⟩

/-- Claim C7: whenever the reverse ray (origin advanced along the
normalised direction by the length of the box size, direction negated)
has no intersection with the box per the external test,
getIntersectionEnd returns origin plus the normalised direction scaled
by maxDistance. -/
theorem getIntersectionEnd_fallback (geom : GeomLib) (s : GridSource)
    (ray : RayT) (maxDistance : ℚ)
    (h : geom.rayIntersectsBox
        ⟨ray.origin + geom.normalise ray.direction *
            geom.vecLength (boxSize (gridBox s)),
          (-1 : ℚ) * geom.normalise ray.direction⟩ (gridBox s) = none) :
    getIntersectionEnd geom s ray maxDistance =
      ray.origin + geom.normalise ray.direction * maxDistance := by
  simp only [getIntersectionEnd, h]

/-- Witness for C7: a never-hitting external test on a concrete ray
yields exactly the fallback exit point. -/
theorem getIntersectionEnd_fallback_witness :
    getIntersectionEnd geomMiss (exSource 2 2 2 1 1 1 true false false)
        ⟨⟨-5, -5, -5⟩, ⟨1, 0, 0⟩⟩ 5 =
      ⟨-5, -5, -5⟩ + geomMiss.normalise ⟨1, 0, 0⟩ * (5 : ℚ) :=
  getIntersectionEnd_fallback geomMiss (exSource 2 2 2 1 1 1 true false false)
    ⟨⟨-5, -5, -5⟩, ⟨1, 0, 0⟩⟩ 5 rfl

/-- Claim C4: with the trilinear value flag set, at a position whose
scaled coordinates are exactly the naturals nx, ny, nz (each at most the
corresponding dimension), getValue returns exactly the stored sample at
that lattice point: the degenerate x0 equal x1 case needs no special
treatment, the weights degrade to a direct lookup. -/
theorem getValue_trilinear_lattice (s : GridSource)
    (grid : ℕ → ℕ → ℕ → ℚ) (position : V3) (nx ny nz : ℕ)
    (hflag : s.mTrilinearValue = true)
    (hx : position.x * s.mPosXScale = (nx : ℚ))
    (hy : position.y * s.mPosYScale = (ny : ℚ))
    (hz : position.z * s.mPosZScale = (nz : ℚ))
    (hxw : (nx : ℤ) ≤ s.mWidth) (hyh : (ny : ℤ) ≤ s.mHeight)
    (hzd : (nz : ℤ) ≤ s.mDepth) :
    getValue s grid position = grid nx ny nz := by
  simp only [getValue, hflag, if_true, hx, hy, hz, sizeTCast_natCast,
    sizeTCastCeil_natCast, sub_self]
  ring_nf

/-- Witness for C4: a concrete trilinear lookup at the lattice point
(1, 1, 0) of a 2 by 2 by 2 grid with unit scales. -/
theorem getValue_trilinear_lattice_witness :
    getValue (exSource 2 2 2 1 1 1 true false false) exGridN ⟨1, 1, 0⟩ =
      exGridN 1 1 0 :=
  getValue_trilinear_lattice (exSource 2 2 2 1 1 1 true false false) exGridN
    ⟨1, 1, 0⟩ 1 1 0 rfl (by norm_num [exSource]) (by norm_num [exSource])
    (by norm_num [exSource]) (by norm_num [exSource]) (by norm_num [exSource])
    (by norm_num [exSource])

/-- Claim C8: with the value flag clear, getValue truncates each scaled
coordinate plus one half and fetches that single sample: with unit
scales, at x plus two fifths it reads the sample at x, and at x plus
three fifths it reads the sample at x plus one. -/
theorem getValue_nearest_rounding (s : GridSource)
    (grid : ℕ → ℕ → ℕ → ℚ) (nx ny nz : ℕ)
    (hflag : s.mTrilinearValue = false)
    (hsx : s.mPosXScale = 1) (hsy : s.mPosYScale = 1)
    (hsz : s.mPosZScale = 1) :
    getValue s grid ⟨(nx : ℚ) + 2/5, (ny : ℚ), (nz : ℚ)⟩ = grid nx ny nz ∧
    getValue s grid ⟨(nx : ℚ) + 3/5, (ny : ℚ), (nz : ℚ)⟩ =
      grid (nx + 1) ny nz := by
  have hy : sizeTCast ((ny : ℚ) + 1/2) = ny :=
    sizeTCast_natCast_add ny (1/2) (by norm_num) (by norm_num)
  have hz : sizeTCast ((nz : ℚ) + 1/2) = nz :=
    sizeTCast_natCast_add nz (1/2) (by norm_num) (by norm_num)
  constructor
  · have hx : sizeTCast ((nx : ℚ) + 2/5 + 1/2) = nx := by
      rw [show (nx : ℚ) + 2/5 + 1/2 = (nx : ℚ) + 9/10 by ring]
      exact sizeTCast_natCast_add nx (9/10) (by norm_num) (by norm_num)
    simp only [getValue, hflag, hsx, hsy, hsz, mul_one]
    rw [if_neg (by decide : ¬(false = true)), hx, hy, hz]
  · have hx : sizeTCast ((nx : ℚ) + 3/5 + 1/2) = nx + 1 := by
      rw [show (nx : ℚ) + 3/5 + 1/2 = ((nx + 1 : ℕ) : ℚ) + 1/10 by
        push_cast; ring]
      exact sizeTCast_natCast_add (nx + 1) (1/10) (by norm_num) (by norm_num)
    simp only [getValue, hflag, hsx, hsy, hsz, mul_one]
    rw [if_neg (by decide : ¬(false = true)), hx, hy, hz]

/-- Witness for C8: concrete nearest-neighbor reads at 1.4 and 1.6 on a
grid with unit scales. -/
theorem getValue_nearest_rounding_witness :
    getValue (exSource 4 4 4 1 1 1 false false false) exGridN
        ⟨(1 : ℚ) + 2/5, 0, 0⟩ = exGridN 1 0 0 ∧
    getValue (exSource 4 4 4 1 1 1 false false false) exGridN
        ⟨(1 : ℚ) + 3/5, 0, 0⟩ = exGridN 2 0 0 :=
  getValue_nearest_rounding (exSource 4 4 4 1 1 1 false false false)
    exGridN 1 0 0 rfl rfl rfl rfl

/-- Claim C9: the fourth component of getValueAndGradient is exactly
getValue at the same input position, and the two mode flags act
independently: the gradient components do not depend on the value flag,
and the value component does not depend on the gradient flag. -/
theorem getValueAndGradient_value_component (s : GridSource)
    (grad : ℕ → ℕ → ℕ → V3) (grid : ℕ → ℕ → ℕ → ℚ) (position : V3)
    (b : Bool) :
    (getValueAndGradient s grad grid position).w =
      getValue s grid position ∧
    ((getValueAndGradient { s with mTrilinearValue := b } grad grid
        position).x = (getValueAndGradient s grad grid position).x ∧
     (getValueAndGradient { s with mTrilinearValue := b } grad grid
        position).y = (getValueAndGradient s grad grid position).y ∧
     (getValueAndGradient { s with mTrilinearValue := b } grad grid
        position).z = (getValueAndGradient s grad grid position).z) ∧
    (getValueAndGradient { s with mTrilinearGradient := b } grad grid
        position).w = (getValueAndGradient s grad grid position).w :=
  ⟨rfl, ⟨rfl, rfl, rfl⟩, rfl⟩

/-- Characterisation of combineWithSource as one constructor
application: the thrown flag and the write list are those of the loop
run, and the value-interpolation flag ends false when the operator threw
and is assigned back to its old value otherwise. -/
theorem combineWithSource_eq (s : GridSource) (op : V3 → Option ℚ)
    (center : V3) (radius : ℚ) :
    combineWithSource s op center radius =
      ⟨(runBake op (1 / s.mPosXScale) (1 / s.mPosYScale) (1 / s.mPosZScale)
          (bakePoints (bakeBounds s center radius))).2,
       { s with mTrilinearValue :=
          if (runBake op (1 / s.mPosXScale) (1 / s.mPosYScale)
              (1 / s.mPosZScale) (bakePoints (bakeBounds s center radius))).2
          then false else s.mTrilinearValue },
       (runBake op (1 / s.mPosXScale) (1 / s.mPosYScale) (1 / s.mPosZScale)
          (bakePoints (bakeBounds s center radius))).1⟩ := by
  simp only [combineWithSource]
  split <;> simp_all

/-- Evaluation: on the 1 by 1 by 1 unit-scale grid, a bake centered at
(1, 1, 1) with radius 1 iterates exactly the lattice point (0, 0, 0);
with a throwing operator no write happens, the thrown flag is set and
the value-interpolation flag is left false. -/
theorem exBakeThrow_eval :
    combineWithSource (exSource 1 1 1 1 1 1 true false false) exOpThrow
        ⟨1, 1, 1⟩ 1 =
      ⟨true, ⟨1, 1, 1, 1, 1, 1, 1, false, false, false⟩, []⟩ := by
  norm_num [combineWithSource, bakeBounds, exSource, mathClamp,
    truncTowardZero, bakePoints, intRange, runBake, exOpThrow,
    List.range_succ]

/-- Evaluation: the same bake with the constant total operator writes
the single cell (0, 0, 0) and completes normally, restoring the
flag. -/
theorem exBakeConst_eval :
    combineWithSource (exSource 1 1 1 1 1 1 true false false) exOpConst
        ⟨1, 1, 1⟩ 1 =
      ⟨false, ⟨1, 1, 1, 1, 1, 1, 1, true, false, false⟩,
        [((0, 0, 0), 7)]⟩ := by
  norm_num [combineWithSource, bakeBounds, exSource, mathClamp,
    truncTowardZero, bakePoints, intRange, runBake, exOpConst,
    List.range_succ]

/-- Evaluation: the bounds of that bake. -/
theorem exBounds_eval :
    bakeBounds (exSource 1 1 1 1 1 1 true false false) ⟨1, 1, 1⟩ 1 =
      ⟨0, 1, 0, 1, 0, 1⟩ := by
  norm_num [bakeBounds, exSource, mathClamp, truncTowardZero]

/-- Claim C1 (amended): the value-interpolation flag after
combineWithSource equals its pre-bake value on normal completion, but
when the operator throws the restoring assignment is never reached and
the flag is left false (nearest-neighbor mode). -/
theorem combineWithSource_flag_final (s : GridSource) (op : V3 → Option ℚ)
    (center : V3) (radius : ℚ) :
    (combineWithSource s op center radius).finalSource.mTrilinearValue =
      if (combineWithSource s op center radius).threw then false
      else s.mTrilinearValue := by
  rw [combineWithSource_eq]

/-- Counterexample for claim C1 as stated: on a 1 by 1 by 1 grid with
the trilinear value flag initially set, a bake over one lattice point
with an operator that throws leaves the flag false instead of restoring
it to its pre-bake value on that exit path. -/
theorem combineWithSource_throw_no_restore :
    (combineWithSource (exSource 1 1 1 1 1 1 true false false) exOpThrow
        ⟨1, 1, 1⟩ 1).finalSource.mTrilinearValue ≠
      (exSource 1 1 1 1 1 1 true false false).mTrilinearValue := by
  rw [exBakeThrow_eval]
  decide

/-- Claim C2: the source computes the iteration bounds without applying
the axis scale factors.  At scale factor 2 on every axis, center
(4, 1, 1) and radius 1, the code produces the x bounds 3 and 5 (and y, z
bounds 0 and 2), while the conversion to lattice index space described
by the claim produces the x bounds 6 and 10 (and y, z bounds 0 and
4). -/
theorem bakeBounds_ignores_scale :
    bakeBounds (exSource 20 20 20 2 2 2 true false false) ⟨4, 1, 1⟩ 1 =
        ⟨3, 5, 0, 2, 0, 2⟩ ∧
      bakeBoundsSpec (exSource 20 20 20 2 2 2 true false false) ⟨4, 1, 1⟩ 1 =
        ⟨6, 10, 0, 4, 0, 4⟩ := by
  constructor
  · norm_num [bakeBounds, exSource, mathClamp, truncTowardZero]
  · norm_num [bakeBoundsSpec, exSource, mathClamp, truncTowardZero]

/-- Claim C3: every write performed by combineWithSource lands at an
integer coordinate with 0 at most x below mWidth, 0 at most y below
mHeight and 0 at most z below mDepth, for every center, radius,
operator and state: the clamped bounds make the start inclusive and end
exclusive ranges stay inside the lattice. -/
theorem combineWithSource_writes_in_bounds (s : GridSource)
    (op : V3 → Option ℚ) (center : V3) (radius : ℚ)
    (w : (ℤ × ℤ × ℤ) × ℚ)
    (hw : w ∈ (combineWithSource s op center radius).writes) :
    0 ≤ w.1.1 ∧ w.1.1 < s.mWidth ∧ 0 ≤ w.1.2.1 ∧ w.1.2.1 < s.mHeight ∧
      0 ≤ w.1.2.2 ∧ w.1.2.2 < s.mDepth := by
  rw [combineWithSource_eq] at hw
  have hmem : w.1 ∈ bakePoints (bakeBounds s center radius) :=
    runBake_writes_mem _ _ _ _ _ _ hw
  rw [mem_bakePoints] at hmem
  obtain ⟨⟨h1, h2⟩, ⟨h3, h4⟩, h5, h6⟩ := hmem
  unfold bakeBounds mathClamp at h1 h2 h3 h4 h5 h6
  simp only at h1 h2 h3 h4 h5 h6
  refine ⟨?_, ?_, ?_, ?_, ?_, ?_⟩ <;> omega

/-- Witness for C3: a concrete total bake on a 1 by 1 by 1 grid writes
the cell (0, 0, 0), which is inside all bounds. -/
theorem combineWithSource_writes_in_bounds_witness :
    (0 : ℤ) ≤ 0 ∧ (0 : ℤ) < 1 ∧ (0 : ℤ) ≤ 0 ∧ (0 : ℤ) < 1 ∧
      (0 : ℤ) ≤ 0 ∧ (0 : ℤ) < 1 :=
  combineWithSource_writes_in_bounds
    (exSource 1 1 1 1 1 1 true false false) exOpConst ⟨1, 1, 1⟩ 1
    ((0, 0, 0), 7) (by rw [exBakeConst_eval]; simp)

/-- Claim C10: on normal completion combineWithSource leaves the
dimensions, the three axis scale factors, the volume-to-world factor,
the gradient-interpolation flag and the Sobel flag unchanged, restores
the value-interpolation flag, and leaves every storage cell outside the
clamped iteration box unchanged. -/
theorem combineWithSource_frame (s : GridSource) (op : V3 → Option ℚ)
    (center : V3) (radius : ℚ) (grid : ℤ → ℤ → ℤ → ℚ) (px py pz : ℤ)
    (hnorm : (combineWithSource s op center radius).threw = false)
    (hout : ¬((bakeBounds s center radius).xs ≤ px ∧
      px < (bakeBounds s center radius).xe ∧
      (bakeBounds s center radius).ys ≤ py ∧
      py < (bakeBounds s center radius).ye ∧
      (bakeBounds s center radius).zs ≤ pz ∧
      pz < (bakeBounds s center radius).ze)) :
    (combineWithSource s op center radius).finalSource.mWidth = s.mWidth ∧
    (combineWithSource s op center radius).finalSource.mHeight = s.mHeight ∧
    (combineWithSource s op center radius).finalSource.mDepth = s.mDepth ∧
    (combineWithSource s op center radius).finalSource.mPosXScale =
      s.mPosXScale ∧
    (combineWithSource s op center radius).finalSource.mPosYScale =
      s.mPosYScale ∧
    (combineWithSource s op center radius).finalSource.mPosZScale =
      s.mPosZScale ∧
    (combineWithSource s op center
        radius).finalSource.mVolumeSpaceToWorldSpaceFactor =
      s.mVolumeSpaceToWorldSpaceFactor ∧
    (combineWithSource s op center radius).finalSource.mTrilinearGradient =
      s.mTrilinearGradient ∧
    (combineWithSource s op center radius).finalSource.mSobelGradient =
      s.mSobelGradient ∧
    (combineWithSource s op center radius).finalSource.mTrilinearValue =
      s.mTrilinearValue ∧
    applyWrites grid (combineWithSource s op center radius).writes px py pz =
      grid px py pz := by
  rw [combineWithSource_eq] at hnorm ⊢
  simp only at hnorm
  refine ⟨rfl, rfl, rfl, rfl, rfl, rfl, rfl, rfl, rfl, ?_, ?_⟩
  · simp only
    rw [hnorm, if_neg (by decide : ¬(false = true))]
  · apply applyWrites_frame
    intro w hw heq
    have hw2 : w ∈ (runBake op (1 / s.mPosXScale) (1 / s.mPosYScale)
        (1 / s.mPosZScale) (bakePoints (bakeBounds s center radius))).1 := hw
    have hmem := runBake_writes_mem _ _ _ _ _ w hw2
    rw [heq, mem_bakePoints] at hmem
    simp only at hmem
    exact hout (by tauto)

/-- Witness for C10: a concrete total bake over the whole 1 by 1 by 1
grid completes normally, preserves every configuration field and leaves
the cell (5, 0, 0), outside the box, unchanged. -/
theorem combineWithSource_frame_witness :
    (combineWithSource (exSource 1 1 1 1 1 1 true false false) exOpConst
        ⟨1, 1, 1⟩ 1).finalSource.mWidth = 1 ∧
    (combineWithSource (exSource 1 1 1 1 1 1 true false false) exOpConst
        ⟨1, 1, 1⟩ 1).finalSource.mHeight = 1 ∧
    (combineWithSource (exSource 1 1 1 1 1 1 true false false) exOpConst
        ⟨1, 1, 1⟩ 1).finalSource.mDepth = 1 ∧
    (combineWithSource (exSource 1 1 1 1 1 1 true false false) exOpConst
        ⟨1, 1, 1⟩ 1).finalSource.mPosXScale = 1 ∧
    (combineWithSource (exSource 1 1 1 1 1 1 true false false) exOpConst
        ⟨1, 1, 1⟩ 1).finalSource.mPosYScale = 1 ∧
    (combineWithSource (exSource 1 1 1 1 1 1 true false false) exOpConst
        ⟨1, 1, 1⟩ 1).finalSource.mPosZScale = 1 ∧
    (combineWithSource (exSource 1 1 1 1 1 1 true false false) exOpConst
        ⟨1, 1, 1⟩ 1).finalSource.mVolumeSpaceToWorldSpaceFactor = 1 ∧
    (combineWithSource (exSource 1 1 1 1 1 1 true false false) exOpConst
        ⟨1, 1, 1⟩ 1).finalSource.mTrilinearGradient = false ∧
    (combineWithSource (exSource 1 1 1 1 1 1 true false false) exOpConst
        ⟨1, 1, 1⟩ 1).finalSource.mSobelGradient = false ∧
    (combineWithSource (exSource 1 1 1 1 1 1 true false false) exOpConst
        ⟨1, 1, 1⟩ 1).finalSource.mTrilinearValue = true ∧
    applyWrites exGridZ (combineWithSource
        (exSource 1 1 1 1 1 1 true false false) exOpConst
        ⟨1, 1, 1⟩ 1).writes 5 0 0 = exGridZ 5 0 0 :=
  combineWithSource_frame (exSource 1 1 1 1 1 1 true false false) exOpConst
    ⟨1, 1, 1⟩ 1 exGridZ 5 0 0 (by rw [exBakeConst_eval])
    (by rw [exBounds_eval]; decide)

/-- Helper: the fractional offset left by the floor cast of a
nonnegative rational lies in the interval from 0 inclusive to 1
exclusive. -/
theorem sizeTCast_fract_bounds (q : ℚ) (h : 0 ≤ q) :
    0 ≤ q - (sizeTCast q : ℚ) ∧ q - (sizeTCast q : ℚ) < 1 := by
  unfold sizeTCast
  have h0 : (0 : ℤ) ≤ ⌊q⌋ := Int.floor_nonneg.mpr h
  have hcast : ((⌊q⌋.toNat : ℕ) : ℚ) = ((⌊q⌋ : ℤ) : ℚ) := by
    exact_mod_cast congrArg (fun n : ℤ => (n : ℚ)) (Int.toNat_of_nonneg h0)
  rw [hcast]
  constructor
  · linarith [Int.floor_le q]
  · linarith [Int.lt_floor_add_one q]

/-- Helper: the x component produced by the trilinear blend-of-blends
formula over eight positive corner values, negated, is negative whenever
the three fractional offsets lie in the interval from 0 inclusive to 1
exclusive. -/
theorem trilinearBlendX_neg (A B C D E F G H dX dY dZ : ℚ)
    (hA : 0 < A) (hB : 0 < B) (hC : 0 < C) (hD : 0 < D) (hE : 0 < E)
    (hF : 0 < F) (hG : 0 < G) (hH : 0 < H)
    (hx0 : 0 ≤ dX) (hx1 : dX < 1) (hy0 : 0 ≤ dY) (hy1 : dY < 1)
    (hz0 : 0 ≤ dZ) (hz1 : dZ < 1) :
    ((1 - dZ) * (A * ((1 - dX) * (1 - dY)) + B * (dX * (1 - dY))
        + C * (1 - dX) * dY)
      + dZ * (D * ((1 - dX) * (1 - dY)) + E * (dX * (1 - dY))
        + F * (1 - dX) * dY)
      + dX * dY * (G * (1 - dZ) + H * dZ)) * (-1) < 0 := by
  have p1 : 0 < (1 - dZ) * (A * ((1 - dX) * (1 - dY))) :=
    mul_pos (by linarith) (mul_pos hA (mul_pos (by linarith) (by linarith)))
  have p2 : 0 ≤ (1 - dZ) * (B * (dX * (1 - dY))) :=
    mul_nonneg (by linarith) (mul_nonneg hB.le (mul_nonneg hx0 (by linarith)))
  have p3 : 0 ≤ (1 - dZ) * (C * (1 - dX) * dY) :=
    mul_nonneg (by linarith)
      (mul_nonneg (mul_nonneg hC.le (by linarith)) hy0)
  have p4 : 0 ≤ dZ * (D * ((1 - dX) * (1 - dY))) :=
    mul_nonneg hz0 (mul_nonneg hD.le (mul_nonneg (by linarith) (by linarith)))
  have p5 : 0 ≤ dZ * (E * (dX * (1 - dY))) :=
    mul_nonneg hz0 (mul_nonneg hE.le (mul_nonneg hx0 (by linarith)))
  have p6 : 0 ≤ dZ * (F * (1 - dX) * dY) :=
    mul_nonneg hz0 (mul_nonneg (mul_nonneg hF.le (by linarith)) hy0)
  have p7 : 0 ≤ dX * dY * (G * (1 - dZ)) :=
    mul_nonneg (mul_nonneg hx0 hy0) (mul_nonneg hG.le (by linarith))
  have p8 : 0 ≤ dX * dY * (H * dZ) :=
    mul_nonneg (mul_nonneg hx0 hy0) (mul_nonneg hH.le hz0)
  nlinarith [p1, p2, p3, p4, p5, p6, p7, p8]

/-- Claim C5: getValueAndGradient negates the reconstructed gradient,
after the trilinear blend of the eight corner gradients and equally
after the single nearest-neighbor fetch when the gradient flag is
clear: for a gradient accessor reporting increase purely along the
positive x axis (positive x component, zero y and z components) at
every lattice point, and a position with nonnegative scaled
coordinates, the returned x component is negative under either flag
setting. -/
theorem getValueAndGradient_negates (s : GridSource)
    (grad : ℕ → ℕ → ℕ → V3) (grid : ℕ → ℕ → ℕ → ℚ) (position : V3)
    (hgx : ∀ i j k : ℕ, 0 < (grad i j k).x)
    (hgy : ∀ i j k : ℕ, (grad i j k).y = 0)
    (hgz : ∀ i j k : ℕ, (grad i j k).z = 0)
    (hpx : 0 ≤ position.x * s.mPosXScale)
    (hpy : 0 ≤ position.y * s.mPosYScale)
    (hpz : 0 ≤ position.z * s.mPosZScale) :
    (getValueAndGradient s grad grid position).x < 0 := by
  cases hflag : s.mTrilinearGradient with
  | false =>
    have h := hgx (sizeTCast (position.x * s.mPosXScale + 1/2))
      (sizeTCast (position.y * s.mPosYScale + 1/2))
      (sizeTCast (position.z * s.mPosZScale + 1/2))
    simp only [getValueAndGradient, hflag]
    rw [if_neg (by decide : ¬(false = true))]
    simp only [V3.mulc_x]
    linarith
  | true =>
    simp only [getValueAndGradient, hflag]
    rw [if_pos trivial]
    simp only [V3.add_x, V3.mulc_x, V3.cmul_x]
    obtain ⟨hx0, hx1⟩ := sizeTCast_fract_bounds _ hpx
    obtain ⟨hy0, hy1⟩ := sizeTCast_fract_bounds _ hpy
    obtain ⟨hz0, hz1⟩ := sizeTCast_fract_bounds _ hpz
    have hA := hgx (sizeTCast (position.x * s.mPosXScale))
      (sizeTCast (position.y * s.mPosYScale))
      (sizeTCast (position.z * s.mPosZScale))
    have hB := hgx (sizeTCastCeil (position.x * s.mPosXScale))
      (sizeTCast (position.y * s.mPosYScale))
      (sizeTCast (position.z * s.mPosZScale))
    have hC := hgx (sizeTCast (position.x * s.mPosXScale))
      (sizeTCastCeil (position.y * s.mPosYScale))
      (sizeTCast (position.z * s.mPosZScale))
    have hD := hgx (sizeTCast (position.x * s.mPosXScale))
      (sizeTCast (position.y * s.mPosYScale))
      (sizeTCastCeil (position.z * s.mPosZScale))
    have hE := hgx (sizeTCastCeil (position.x * s.mPosXScale))
      (sizeTCast (position.y * s.mPosYScale))
      (sizeTCastCeil (position.z * s.mPosZScale))
    have hF := hgx (sizeTCast (position.x * s.mPosXScale))
      (sizeTCastCeil (position.y * s.mPosYScale))
      (sizeTCastCeil (position.z * s.mPosZScale))
    have hG := hgx (sizeTCastCeil (position.x * s.mPosXScale))
      (sizeTCastCeil (position.y * s.mPosYScale))
      (sizeTCast (position.z * s.mPosZScale))
    have hH := hgx (sizeTCastCeil (position.x * s.mPosXScale))
      (sizeTCastCeil (position.y * s.mPosYScale))
      (sizeTCastCeil (position.z * s.mPosZScale))
    exact trilinearBlendX_neg _ _ _ _ _ _ _ _ _ _ _ hA hB hC hD hE hF hG hH
      hx0 hx1 hy0 hy1 hz0 hz1

/-- Witness for C5: a concrete gradient accessor increasing purely
along x, sampled at an off-lattice position with the trilinear gradient
flag set, yields a negative x component. -/
theorem getValueAndGradient_negates_witness :
    (getValueAndGradient (exSource 4 4 4 1 1 1 true true false) exGrad
        exGridN ⟨3/2, 1, 1⟩).x < 0 :=
  getValueAndGradient_negates (exSource 4 4 4 1 1 1 true true false) exGrad
    exGridN ⟨3/2, 1, 1⟩
    (fun i j k => by simp only [exGrad]; positivity)
    (fun i j k => rfl) (fun i j k => rfl)
    (by norm_num [exSource]) (by norm_num [exSource]) (by norm_num [exSource])
